import Mathlib

/-!
Verification of the Tic-Tac-Toe client session view-model
(`src/app/page.tsx`, with the earlier snapshot `src/unnamed/part_000`).

The embedding models JavaScript runtime values reaching the client as a
`Json` type, the platform `JSON.stringify` / `JSON.parse` pair as an
executable printer and parser with a proved roundtrip, and the two stateful
operations `makeMove` / `startNewGame` as pure state transformers over the
component's React state, taking the outcome of the single `fetch` call as an
explicit input.
-/

/-- JavaScript values as delivered by the JSON layer: the response envelope,
the game payload and every field the client reads are such values. -/
inductive Json where
  | null
  | bool (b : Bool)
  | num (n : Int)
  | str (s : String)
  | arr (elems : List Json)
  | obj (fields : List (String × Json))

namespace Json

/-- JavaScript truthiness of a JSON-representable value: `null`, `false`,
`0` and `""` are falsy; arrays and objects are always truthy. -/
def truthy : Json → Bool
  | .null => false
  | .bool b => b
  | .num n => n != 0
  | .str s => s ≠ ""
  | .arr _ => true
  | .obj _ => true

/-- Property lookup on an object's field list (first match wins). -/
def lookupField : List (String × Json) → String → Option Json
  | [], _ => none
  | (k, v) :: fs, key => if k = key then some v else lookupField fs key

/-- JavaScript property access `x.key`: `none` models `undefined`
(absent field, or access on a non-object value). -/
def getField : Json → String → Option Json
  | .obj fs, key => lookupField fs key
  | _, _ => none

/-- JavaScript strict equality `x === "t"` of a value with a string literal. -/
def isStrEq : Json → String → Bool
  | .str s, t => s = t
  | _, _ => false

/-- JavaScript strict equality `x === n` of a value with a number. -/
def eqNum : Json → Int → Bool
  | .num m, n => m = n
  | _, _ => false

/-- Whether a value is a string. -/
def isStr : Json → Bool
  | .str _ => true
  | _ => false

end Json

/-- Truthiness of a possibly-`undefined` value (`undefined` is falsy). -/
def truthyOpt : Option Json → Bool
  | none => false
  | some j => j.truthy

/-- Strict string equality `x === "t"` when `x` may be `undefined`. -/
def optIsStr (x : Option Json) (t : String) : Bool :=
  match x with
  | some j => j.isStrEq t
  | none => false

/-- JavaScript `x || dflt`: the value when truthy, the default otherwise
(also when `x` is `undefined`). -/
def jsOr (x : Option Json) (dflt : Json) : Json :=
  match x with
  | some v => if v.truthy then v else dflt
  | none => dflt

/-- JavaScript `Array.prototype.includes(n)` over the elements of a JSON array
(strict equality with the number `n`). -/
def includesNum (xs : List Json) (n : Int) : Bool :=
  xs.any (fun j => j.eqNum n)

/-- The element list of a JSON array (the client only maps over values that
are arrays; a non-array here would throw during rendering, which is outside
the session view-model). -/
def jsonElems : Json → List Json
  | .arr xs => xs
  | _ => []

/-! ## The platform JSON layer: `JSON.stringify` and `JSON.parse`

Modelled from the spec: the client calls the browser's `JSON.parse` (both on
the HTTP response body via `response.json()` and on a string-typed `response`
field) and the payloads it receives are produced by `JSON.stringify` on the
other side. The model is an executable printer and recursive-descent parser
over `Json` with a proved `parse (stringify j) = some j` roundtrip. -/

/-- The decimal digit character for `d` (`d ≥ 9` yields `'9'`; callers only
pass `d < 10`). -/
def digitChar (d : Nat) : Char :=
  if d = 0 then '0' else if d = 1 then '1' else if d = 2 then '2'
  else if d = 3 then '3' else if d = 4 then '4' else if d = 5 then '5'
  else if d = 6 then '6' else if d = 7 then '7' else if d = 8 then '8'
  else '9'

/-- The numeric value of a decimal digit character. -/
def charDigit (c : Char) : Nat := c.toNat - 48

/-- Decimal digits of a natural number, most significant first. -/
def natDigits (n : Nat) : List Char :=
  if _h : n < 10 then [digitChar n]
  else natDigits (n / 10) ++ [digitChar (n % 10)]
termination_by n
decreasing_by exact Nat.div_lt_self (by omega) (by omega)

/-- Decimal rendering of an integer. -/
def numChars (n : Int) : List Char :=
  if n < 0 then '-' :: natDigits n.natAbs else natDigits n.toNat

/-- JSON string escaping of one character: `"` and `\` get a backslash,
everything else is emitted literally. -/
def escChar (c : Char) : List Char :=
  if c = '"' ∨ c = '\\' then ['\\', c] else [c]

/-- JSON string escaping of a character list. -/
def escList : List Char → List Char
  | [] => []
  | c :: cs => escChar c ++ escList cs

/-- A JSON string literal (opening quote, escaped body, closing quote). -/
def strLit (s : String) : List Char :=
  '"' :: (escList s.data ++ ['"'])

mutual

/-- Characters of the JSON serialization of a value. -/
def stringifyVal : Json → List Char
  | .null => "null".data
  | .bool true => "true".data
  | .bool false => "false".data
  | .num n => numChars n
  | .str s => strLit s
  | .arr xs => '[' :: (stringifyElems xs ++ [']'])
  | .obj fs => '{' :: (stringifyFields fs ++ ['}'])

/-- Comma-separated serializations of array elements. -/
def stringifyElems : List Json → List Char
  | [] => []
  | [x] => stringifyVal x
  | x :: xs => stringifyVal x ++ ',' :: stringifyElems xs

/-- Comma-separated `"key":value` serializations of object fields. -/
def stringifyFields : List (String × Json) → List Char
  | [] => []
  | [fd] => strLit fd.1 ++ ':' :: stringifyVal fd.2
  | fd :: fs => strLit fd.1 ++ ':' :: stringifyVal fd.2 ++ ',' :: stringifyFields fs

end

/-- The platform `JSON.stringify`. -/
def Json.stringify (j : Json) : String := String.mk (stringifyVal j)

/-- Read a JSON string body up to its closing quote, undoing escapes;
returns the decoded characters and the remaining input. -/
def readStr : List Char → Option (List Char × List Char)
  | [] => none
  | c :: cs =>
    if c = '\\' then
      match cs with
      | [] => none
      | d :: cs2 =>
        match readStr cs2 with
        | none => none
        | some p => some (d :: p.1, p.2)
    else if c = '"' then some ([], cs)
    else
      match readStr cs with
      | none => none
      | some p => some (c :: p.1, p.2)

/-- Split off the maximal leading run of decimal digit characters. -/
def readDigits : List Char → List Char × List Char
  | [] => ([], [])
  | c :: cs =>
    if c.isDigit then
      let p := readDigits cs
      (c :: p.1, p.2)
    else ([], c :: cs)

/-- The natural number denoted by a list of decimal digit characters. -/
def digitsVal (ds : List Char) : Nat :=
  ds.foldl (fun a c => a * 10 + charDigit c) 0

mutual

/-- Fuel-indexed recursive-descent parser for one JSON value; returns the
value and the remaining input. -/
def parseVal : Nat → List Char → Option (Json × List Char)
  | 0, _ => none
  | _ + 1, [] => none
  | fuel + 1, c :: cs =>
    if c = 'n' then
      match cs with
      | 'u' :: 'l' :: 'l' :: rest => some (.null, rest)
      | _ => none
    else if c = 't' then
      match cs with
      | 'r' :: 'u' :: 'e' :: rest => some (.bool true, rest)
      | _ => none
    else if c = 'f' then
      match cs with
      | 'a' :: 'l' :: 's' :: 'e' :: rest => some (.bool false, rest)
      | _ => none
    else if c = '"' then
      match readStr cs with
      | none => none
      | some p => some (.str (String.mk p.1), p.2)
    else if c = '[' then
      match cs with
      | ']' :: rest => some (.arr [], rest)
      | _ =>
        match parseElems fuel cs with
        | none => none
        | some p => some (.arr p.1, p.2)
    else if c = '{' then
      match cs with
      | '}' :: rest => some (.obj [], rest)
      | _ =>
        match parseFields fuel cs with
        | none => none
        | some p => some (.obj p.1, p.2)
    else if c = '-' then
      match readDigits cs with
      | ([], _) => none
      | (ds, rest) => some (.num (-(digitsVal ds : Int)), rest)
    else if c.isDigit then
      let p := readDigits (c :: cs)
      some (.num (digitsVal p.1), p.2)
    else none

/-- Parse a nonempty comma-separated element list up to the closing `]`. -/
def parseElems : Nat → List Char → Option (List Json × List Char)
  | 0, _ => none
  | fuel + 1, input =>
    match parseVal fuel input with
    | none => none
    | some (j, rest) =>
      match rest with
      | ',' :: rest2 =>
        match parseElems fuel rest2 with
        | none => none
        | some p => some (j :: p.1, p.2)
      | ']' :: rest2 => some ([j], rest2)
      | _ => none

/-- Parse a nonempty comma-separated field list up to the closing `}`. -/
def parseFields : Nat → List Char → Option (List (String × Json) × List Char)
  | 0, _ => none
  | fuel + 1, input =>
    match input with
    | '"' :: cs =>
      match readStr cs with
      | none => none
      | some (key, rest) =>
        match rest with
        | ':' :: rest2 =>
          match parseVal fuel rest2 with
          | none => none
          | some (v, rest3) =>
            match rest3 with
            | ',' :: rest4 =>
              match parseFields fuel rest4 with
              | none => none
              | some p => some ((String.mk key, v) :: p.1, p.2)
            | '}' :: rest4 => some ([(String.mk key, v)], rest4)
            | _ => none
        | _ => none
    | _ => none

end

/-- The platform `JSON.parse`: parse the whole string as one JSON value,
`none` modelling a thrown `SyntaxError`. -/
def Json.parse (s : String) : Option Json :=
  match parseVal (s.length + 1) s.data with
  | some (j, []) => some j
  | _ => none

/-- Whether the input does not begin with a decimal digit (so a maximal
digit run ending right before it is read back unchanged). -/
def noDigitHead : List Char → Bool
  | [] => true
  | c :: _ => !c.isDigit

mutual

/-- Parser fuel sufficient for a value produced by `stringifyVal`. -/
def jfuel : Json → Nat
  | .arr [] => 1
  | .arr (x :: xs) => 1 + lfuel (x :: xs)
  | .obj [] => 1
  | .obj (fd :: fs) => 1 + ffuel (fd :: fs)
  | _ => 1

/-- Parser fuel sufficient for a nonempty serialized element list. -/
def lfuel : List Json → Nat
  | [] => 0
  | [x] => 1 + jfuel x
  | x :: xs => 1 + max (jfuel x) (lfuel xs)

/-- Parser fuel sufficient for a nonempty serialized field list. -/
def ffuel : List (String × Json) → Nat
  | [] => 0
  | [fd] => 1 + jfuel fd.2
  | fd :: fs => 1 + max (jfuel fd.2) (ffuel fs)

end

/-! ## The session view-model (`src/app/page.tsx`)

React state is a record; `makeMove` / `startNewGame` are pure state
transformers taking the outcome of the single `fetch` call as input and
returning the new state together with the request body issued (if any). -/

/-- The React state of the `TicTacToe` component (`page.tsx`). The state
hooks are typed loosely in the source (`setGameState(gameData.game_state)`
stores whatever the payload holds), so JSON-valued fields are
`Option Json`, `none` modelling `null`/`undefined`. -/
structure SessionView where
  gameState : Option Json
  gameStatus : Option Json
  winner : Option Json
  showWinnerModal : Bool
  loading : Bool
  message : Option Json
  error : Option Json

/-- The outcome of the `fetch` call, as seen by the client: either the
promise rejects with an `Error` carrying a message, or an HTTP response
arrives with its `ok` flag, status code, and raw body text (which
`response.json()` parses). -/
inductive FetchResult where
  | reject (errMsg : String)
  | resp (ok : Bool) (status : Nat) (body : String)

/-- A thrown JavaScript `Error`, reduced to its message (all the client
reads from a caught error is `err.message`). -/
structure Thrown where
  msg : String

/-- Modelled from the spec: the platform's `JSON.parse` raises a
`SyntaxError` with a nonempty message on malformed input; the client only
forwards `err.message`, so one representative message suffices. -/
def parseFailMsg : String := "Unexpected token in JSON"

/-- The `response.json()` call: parse the body, raising `SyntaxError` on failure. -/
def jsonOrThrow (body : String) : Except Thrown Json :=
  match Json.parse body with
  | some j => Except.ok j
  | none => Except.error ⟨parseFailMsg⟩

/-- The `typeof data.response === 'string' ? JSON.parse(data.response)
: data.response` normalization of `page.tsx` (lines 187 and 234); `none`
models a thrown parse error. -/
def normalizeResp : Json → Option Json
  | .str s => Json.parse s
  | j => some j

/-- The `response` field of the envelope (defaulting to `null`; callers
only use it after the envelope check guarantees it is present). -/
def respOfData (data : Json) : Json :=
  (data.getField "response").getD .null

/-- The `page.tsx` envelope check `data.success && data.response`. -/
def envelopeOkA (data : Json) : Bool :=
  truthyOpt (data.getField "success") && truthyOpt (data.getField "response")

/-- The state after `makeMove`'s initial `setLoading(true); setError(null)`
(`page.tsx` lines 166-167). -/
def moveEntry (s : SessionView) : SessionView :=
  { s with loading := true, error := none }

/-- The state after `startNewGame`'s initial `setLoading(true);
setError(null); setWinner(null); setShowWinnerModal(false);
setGameStatus('in_progress')` (`page.tsx` lines 210-214). -/
def newGameEntry (s : SessionView) : SessionView :=
  { s with loading := true, error := none, winner := none,
           showWinnerModal := false, gameStatus := some (.str "in_progress") }

/-- The `try` block of `makeMove` (`page.tsx` lines 169-199), starting from
the state after `setLoading(true); setError(null)`: throws on a rejected
fetch, a non-OK status, or a parse failure at either JSON layer; otherwise
returns the updated state. -/
def makeMoveTry (s1 : SessionView) (r : FetchResult) : Except Thrown SessionView :=
  match r with
  | .reject msg => Except.error ⟨msg⟩
  | .resp ok status body =>
    if !ok then Except.error ⟨"API error: " ++ toString status⟩
    else
      match jsonOrThrow body with
      | Except.error e => Except.error e
      | Except.ok data =>
        if envelopeOkA data then
          match normalizeResp (respOfData data) with
          | none => Except.error ⟨parseFailMsg⟩
          | some gameData =>
            let base := { s1 with
              gameState := gameData.getField "game_state",
              gameStatus := gameData.getField "game_status",
              message := gameData.getField "message" }
            if optIsStr (gameData.getField "game_status") "won"
                || optIsStr (gameData.getField "game_status") "draw" then
              Except.ok { base with
                winner := gameData.getField "winner", showWinnerModal := true }
            else Except.ok base
        else
          Except.ok { s1 with
            error := some (jsOr (data.getField "error")
              (.str "Failed to process move")) }

/-- The `makeMove(position)` operation of `page.tsx` (lines 163-207): the guard
`if (loading) return`, the `try`/`catch`/`finally`, and the request body
actually sent (`none` when no request is issued). -/
def makeMove (s : SessionView) (position : Nat) (r : FetchResult) :
    SessionView × Option String :=
  if s.loading then (s, none)
  else
    let s1 := moveEntry s
    let s2 :=
      match makeMoveTry s1 r with
      | Except.ok st => st
      | Except.error e => { s1 with error := some (.str e.msg) }
    ({ s2 with loading := false }, some ("move " ++ toString position))

/-- The `try` block of `startNewGame` (`page.tsx` lines 216-244). -/
def startNewGameTry (s1 : SessionView) (r : FetchResult) : Except Thrown SessionView :=
  match r with
  | .reject msg => Except.error ⟨msg⟩
  | .resp ok status body =>
    if !ok then Except.error ⟨"API error: " ++ toString status⟩
    else
      match jsonOrThrow body with
      | Except.error e => Except.error e
      | Except.ok data =>
        if envelopeOkA data then
          match normalizeResp (respOfData data) with
          | none => Except.error ⟨parseFailMsg⟩
          | some gameData =>
            Except.ok { s1 with
              gameState := gameData.getField "game_state",
              gameStatus := gameData.getField "game_status",
              message := gameData.getField "message" }
        else
          Except.ok { s1 with
            error := some (jsOr (data.getField "error")
              (.str "Failed to start new game")) }

/-- The `startNewGame()` operation of `page.tsx` (lines 209-248): no loading guard; the
operation always clears `error`, `winner` and the modal, resets
`gameStatus` to `"in_progress"`, and issues its request. -/
def startNewGame (s : SessionView) (r : FetchResult) :
    SessionView × Option String :=
  let s1 := newGameEntry s
  let s2 :=
    match startNewGameTry s1 r with
    | Except.ok st => st
    | Except.error e => { s1 with error := some (.str e.msg) }
  ({ s2 with loading := false }, some "new game")

/-- The `New Game` button's `disabled={loading}` flag (`page.tsx` line 293):
invoking `startNewGame` through the UI is blocked exactly while `loading`. -/
def newGameButtonDisabled (loading : Bool) : Bool := loading

/-! ## The earlier snapshot (`src/unnamed/part_000`)

Its `TicTacToe` component differs: no `showWinnerModal` state, no
`response.ok` check, the envelope check is `data.status === 'success'
&& data.response`, `data.response` is used directly as the payload (no
string re-parse), and envelope failures use a fixed message. -/

/-- The React state of the `part_000` component. -/
structure SessionViewB where
  gameState : Option Json
  gameStatus : Option Json
  winner : Option Json
  loading : Bool
  message : Option Json
  error : Option Json

/-- The `part_000` envelope check `data.status === 'success' && data.response`. -/
def envelopeOkB (data : Json) : Bool :=
  optIsStr (data.getField "status") "success" && truthyOpt (data.getField "response")

/-- The `try` block of `makeMove` in `part_000` (lines 170-194). -/
def makeMoveTryB (s1 : SessionViewB) (r : FetchResult) : Except Thrown SessionViewB :=
  match r with
  | .reject msg => Except.error ⟨msg⟩
  | .resp _ _ body =>
    match jsonOrThrow body with
    | Except.error e => Except.error e
    | Except.ok data =>
      if envelopeOkB data then
        let gameData := respOfData data
        let base := { s1 with
          gameState := gameData.getField "game_state",
          gameStatus := gameData.getField "game_status",
          message := gameData.getField "message" }
        if optIsStr (gameData.getField "game_status") "won"
            || optIsStr (gameData.getField "game_status") "draw" then
          Except.ok { base with winner := gameData.getField "winner" }
        else Except.ok base
      else
        Except.ok { s1 with error := some (.str "Failed to process move") }

/-- The `makeMove(position)` operation of `part_000` (lines 164-200). -/
def makeMoveB (s : SessionViewB) (position : Nat) (r : FetchResult) :
    SessionViewB × Option String :=
  if s.loading then (s, none)
  else
    let s1 := { s with loading := true, error := none }
    let s2 :=
      match makeMoveTryB s1 r with
      | Except.ok st => st
      | Except.error e => { s1 with error := some (.str e.msg) }
    ({ s2 with loading := false }, some ("move " ++ toString position))

/-! ## Board rendering (`Cell` and `GameBoard`, `page.tsx` lines 43-91) -/

/-- What `Cell` renders: the mark text (empty for an unmarked cell) and the
button's `disabled` flag (`disabled={!isAvailable}`). -/
structure CellView where
  value : Json
  displayValue : String
  disabled : Bool

/-- The `Cell` component: display text from `value === 'X' / 'O'`, and the
button disabled exactly when the cell is not available. -/
def cellOf (value : Json) (isAvailable : Bool) : CellView :=
  { value := value
    displayValue :=
      if value.isStrEq "X" then "X" else if value.isStrEq "O" then "O" else ""
    disabled := !isAvailable }

/-- The fallback board `[1, 2, ..., 9]` of `GameBoard`. -/
def defaultBoard : Json :=
  .arr ((List.range 9).map (fun i => .num ((i : Int) + 1)))

/-- The `gameState?.board || [1..9]` expression in `GameBoard`. -/
def boardOf (gameState : Option Json) : Json :=
  jsOr (gameState.bind (fun gs => gs.getField "board")) defaultBoard

/-- The `gameState?.available_moves || []` expression in `GameBoard`. -/
def availOf (gameState : Option Json) : Json :=
  jsOr (gameState.bind (fun gs => gs.getField "available_moves")) (.arr [])

/-- The list of cells `GameBoard` renders: one per board entry, at position
`index + 1`, available iff `availableMoves.includes(position) && !isLoading`. -/
def renderedCells (gameState : Option Json) (isLoading : Bool) : List CellView :=
  (jsonElems (boardOf gameState)).enum.map
    (fun ic => cellOf ic.2
      (includesNum (jsonElems (availOf gameState)) ((ic.1 : Int) + 1) && !isLoading))

/-- The data-model invariant of the spec (section 3): a marked cell's
position is never in `available_moves`. -/
def marksMatchAvail (gameState : Option Json) : Bool :=
  (jsonElems (boardOf gameState)).enum.all fun ic =>
    !(ic.2.isStrEq "X" || ic.2.isStrEq "O")
      || !includesNum (jsonElems (availOf gameState)) ((ic.1 : Int) + 1)

/-! ## Helper lemmas about the operations -/

/-- The initial React state (`useState` initializers, `page.tsx` 153-159). -/
def initialState : SessionView :=
  { gameState := none
    gameStatus := some (.str "in_progress")
    winner := none
    showWinnerModal := false
    loading := false
    message := some (.str "Starting new game...")
    error := none }

/-! ## The claims -/

/-- The `part_000` component's initial React state (lines 155-160). -/
def initialStateB : SessionViewB :=
  { gameState := none
    gameStatus := some (.str "in_progress")
    winner := none
    loading := false
    message := some (.str "Starting new game...")
    error := none }

/-- A representative game payload. -/
def samplePayload : Json :=
  Json.obj
    [("game_state", Json.obj
        [("board", Json.arr [Json.str "X", Json.num 2, Json.num 3]),
         ("available_moves", Json.arr [Json.num 2, Json.num 3])]),
     ("game_status", Json.str "in_progress"),
     ("message", Json.str "Your move"),
     ("winner", Json.str "none")]

/-- A variant-A success envelope around `samplePayload`. -/
def sampleEnvA : Json :=
  Json.obj [("success", Json.bool true), ("response", samplePayload)]

/-- A variant-B success envelope around `samplePayload`. -/
def sampleEnvB : Json :=
  Json.obj [("status", Json.str "success"), ("response", samplePayload)]

/-- A failure envelope whose `error` field is a truthy non-string value. -/
def envNumError : Json :=
  Json.obj [("success", Json.bool false), ("error", Json.num 1)]

/-- A failure envelope (no `success` flag) whose `error` field is a truthy
non-string value (an empty array is truthy in JavaScript). -/
def envArrError : Json := Json.obj [("error", Json.arr [])]

/-- A terminal (`won`) variant of the sample payload. -/
def samplePayloadWon : Json :=
  Json.obj
    [("game_state", Json.obj
        [("board", Json.arr [Json.str "X", Json.str "X", Json.str "X"]),
         ("available_moves", Json.arr [])]),
     ("game_status", Json.str "won"),
     ("message", Json.str "You won"),
     ("winner", Json.str "X")]

/-- A variant-A success envelope around the `won` payload. -/
def sampleEnvWon : Json :=
  Json.obj [("success", Json.bool true), ("response", samplePayloadWon)]

/-- A state in which a finished game is showing. -/
def finishedState : SessionView :=
  { gameState := samplePayloadWon.getField "game_state"
    gameStatus := some (.str "won")
    winner := some (.str "X")
    showWinnerModal := true
    loading := false
    message := some (.str "You won")
    error := none }

/-- A concrete `game_state` object: `X` at position 1, positions 2 and 3
open and available. -/
def sampleGameStateJson : Json :=
  Json.obj [("board", Json.arr [Json.str "X", Json.num 2, Json.num 3]),
            ("available_moves", Json.arr [Json.num 2, Json.num 3])]

/-! ### Roundtrip of the JSON layer -/

theorem digitChar_isDigit (d : Nat) : (digitChar d).isDigit = true := by
  unfold digitChar
  split_ifs <;> decide

theorem charDigit_digitChar (d : Nat) (h : d < 10) :
    charDigit (digitChar d) = d := by
  unfold digitChar
  split_ifs with h0 h1 h2 h3 h4 h5 h6 h7 h8 <;>
    first
      | (subst_vars; decide)
      | (have : d = 9 := by omega
         subst this; decide)

theorem natDigits_ne_nil (n : Nat) : natDigits n ≠ [] := by
  rw [natDigits]
  split <;> simp

theorem natDigits_digits (n : Nat) : ∀ c ∈ natDigits n, c.isDigit = true := by
  induction n using Nat.strongRecOn with
  | _ n ih =>
    rw [natDigits]
    split
    · intro c hc
      simp only [List.mem_singleton] at hc
      subst hc
      exact digitChar_isDigit n
    · intro c hc
      have hdiv : n / 10 < n := Nat.div_lt_self (by omega) (by omega)
      cases List.mem_append.mp hc with
      | inl h => exact ih (n / 10) hdiv c h
      | inr h =>
        simp only [List.mem_singleton] at h
        subst h
        exact digitChar_isDigit (n % 10)

theorem digitsVal_append_digit (ds : List Char) (c : Char) :
    digitsVal (ds ++ [c]) = digitsVal ds * 10 + charDigit c := by
  unfold digitsVal
  rw [List.foldl_append]
  rfl

theorem digitsVal_natDigits (n : Nat) : digitsVal (natDigits n) = n := by
  induction n using Nat.strongRecOn with
  | _ n ih =>
    rw [natDigits]
    split
    · rename_i h
      show digitsVal [digitChar n] = n
      unfold digitsVal
      simp [charDigit_digitChar n h]
    · rename_i h
      rw [digitsVal_append_digit,
        ih (n / 10) (Nat.div_lt_self (by omega) (by omega)),
        charDigit_digitChar (n % 10) (Nat.mod_lt n (by omega))]
      omega

theorem readDigits_of_digits (ds rest : List Char)
    (hds : ∀ c ∈ ds, c.isDigit = true) (hrest : noDigitHead rest = true) :
    readDigits (ds ++ rest) = (ds, rest) := by
  induction ds with
  | nil =>
    cases rest with
    | nil => rfl
    | cons c t =>
      simp only [noDigitHead, Bool.not_eq_true'] at hrest
      simp [readDigits, hrest]
  | cons d ds ihds =>
    have hd : d.isDigit = true := hds d (by simp)
    have ih := ihds (fun c hc => hds c (by simp [hc]))
    simp only [List.cons_append, readDigits, hd, if_pos]
    rw [show ds.append rest = ds ++ rest from rfl, ih]

theorem readStr_escList (l rest : List Char) :
    readStr (escList l ++ '"' :: rest) = some (l, rest) := by
  induction l with
  | nil =>
    show readStr ('"' :: rest) = _
    rw [readStr.eq_def]; simp
  | cons c cs ihl =>
    simp only [escList, List.append_assoc]
    by_cases hc : c = '"' ∨ c = '\\'
    · rw [escChar, if_pos hc]
      show readStr ('\\' :: c :: (escList cs ++ '"' :: rest)) = _
      rw [readStr.eq_def]; simp [ihl]
    · rw [escChar, if_neg hc]
      push_neg at hc
      show readStr (c :: (escList cs ++ '"' :: rest)) = _
      rw [readStr.eq_def]; simp [ihl, hc.1, hc.2]

theorem jfuel_pos (j : Json) : 1 ≤ jfuel j := by
  cases j with
  | null => simp [jfuel]
  | bool b => simp [jfuel]
  | num n => simp [jfuel]
  | str s => simp [jfuel]
  | arr xs => cases xs <;> simp [jfuel]
  | obj fs => cases fs <;> simp [jfuel]

theorem lfuel_cons_pos (x : Json) (xs : List Json) : 1 ≤ lfuel (x :: xs) := by
  cases xs <;> simp [lfuel]

theorem ffuel_cons_pos (fd : String × Json) (fs : List (String × Json)) :
    1 ≤ ffuel (fd :: fs) := by
  cases fs <;> simp [ffuel]

theorem isDigit_notSpecial (c : Char) (h : c.isDigit = true) :
    c ≠ 'n' ∧ c ≠ 't' ∧ c ≠ 'f' ∧ c ≠ '"' ∧ c ≠ '[' ∧ c ≠ '{' ∧ c ≠ '-' ∧
      c ≠ ']' ∧ c ≠ '}' := by
  refine ⟨?_, ?_, ?_, ?_, ?_, ?_, ?_, ?_, ?_⟩ <;>
    (intro he; subst he; exact absurd h (by decide))

theorem noDigitHead_cons (c : Char) (r : List Char) :
    noDigitHead (c :: r) = !c.isDigit := rfl

theorem stringifyVal_head (j : Json) :
    ∃ c l, stringifyVal j = c :: l ∧ c ≠ ']' ∧ c ≠ '}' := by
  cases j with
  | null => exact ⟨'n', _, by simp [stringifyVal]; rfl, by decide, by decide⟩
  | bool b =>
    cases b with
    | true => exact ⟨'t', _, by simp [stringifyVal]; rfl, by decide, by decide⟩
    | false => exact ⟨'f', _, by simp [stringifyVal]; rfl, by decide, by decide⟩
  | num n =>
    by_cases hneg : n < 0
    · exact ⟨'-', _, by simp [stringifyVal, numChars, hneg]; rfl, by decide, by decide⟩
    · obtain ⟨d, ds, hd⟩ := List.exists_cons_of_ne_nil (natDigits_ne_nil n.toNat)
      have hdig : d.isDigit = true := natDigits_digits n.toNat d (by simp [hd])
      have hs := isDigit_notSpecial d hdig
      exact ⟨d, ds, by simp [stringifyVal, numChars, hneg, hd],
        hs.2.2.2.2.2.2.2.1, hs.2.2.2.2.2.2.2.2⟩
  | str s => exact ⟨'"', _, by simp [stringifyVal, strLit]; rfl, by decide, by decide⟩
  | arr xs => exact ⟨'[', _, by simp [stringifyVal]; rfl, by decide, by decide⟩
  | obj fs => exact ⟨'{', _, by simp [stringifyVal]; rfl, by decide, by decide⟩

theorem stringifyElems_cons (x : Json) (xs : List Json) :
    ∃ t, stringifyElems (x :: xs) = stringifyVal x ++ t := by
  cases xs with
  | nil => exact ⟨[], by simp [stringifyElems]⟩
  | cons y ys => exact ⟨_, by simp [stringifyElems]; rfl⟩

theorem stringifyFields_cons (fd : String × Json) (fs : List (String × Json)) :
    ∃ t, stringifyFields (fd :: fs) = strLit fd.1 ++ t := by
  cases fs with
  | nil => exact ⟨_, by simp [stringifyFields]; rfl⟩
  | cons g gs => exact ⟨_, by simp [stringifyFields]; rfl⟩

theorem parseVal_null (f : Nat) (rest : List Char) :
    parseVal (f + 1) ('n' :: 'u' :: 'l' :: 'l' :: rest) = some (.null, rest) := rfl

theorem parseVal_true (f : Nat) (rest : List Char) :
    parseVal (f + 1) ('t' :: 'r' :: 'u' :: 'e' :: rest) = some (.bool true, rest) := rfl

theorem parseVal_false (f : Nat) (rest : List Char) :
    parseVal (f + 1) ('f' :: 'a' :: 'l' :: 's' :: 'e' :: rest) =
      some (.bool false, rest) := rfl

theorem parseVal_quote (f : Nat) (cs : List Char) :
    parseVal (f + 1) ('"' :: cs) =
      match readStr cs with
      | none => none
      | some p => some (.str (String.mk p.1), p.2) := rfl

theorem parseVal_lbrack (f : Nat) (cs : List Char) :
    parseVal (f + 1) ('[' :: cs) =
      match cs with
      | ']' :: rest => some (.arr [], rest)
      | _ =>
        match parseElems f cs with
        | none => none
        | some p => some (.arr p.1, p.2) := rfl

theorem parseVal_lbrace (f : Nat) (cs : List Char) :
    parseVal (f + 1) ('{' :: cs) =
      match cs with
      | '}' :: rest => some (.obj [], rest)
      | _ =>
        match parseFields f cs with
        | none => none
        | some p => some (.obj p.1, p.2) := rfl

theorem parseVal_neg (f : Nat) (cs : List Char) :
    parseVal (f + 1) ('-' :: cs) =
      match readDigits cs with
      | ([], _) => none
      | (ds, rest) => some (.num (-(digitsVal ds : Int)), rest) := rfl

theorem parseVal_cons (f : Nat) (c : Char) (cs : List Char) :
    parseVal (f + 1) (c :: cs) =
      (if c = 'n' then
        match cs with
        | 'u' :: 'l' :: 'l' :: rest => some (Json.null, rest)
        | _ => none
      else if c = 't' then
        match cs with
        | 'r' :: 'u' :: 'e' :: rest => some (Json.bool true, rest)
        | _ => none
      else if c = 'f' then
        match cs with
        | 'a' :: 'l' :: 's' :: 'e' :: rest => some (Json.bool false, rest)
        | _ => none
      else if c = '"' then
        match readStr cs with
        | none => none
        | some p => some (Json.str (String.mk p.1), p.2)
      else if c = '[' then
        match cs with
        | ']' :: rest => some (Json.arr [], rest)
        | _ =>
          match parseElems f cs with
          | none => none
          | some p => some (Json.arr p.1, p.2)
      else if c = '{' then
        match cs with
        | '}' :: rest => some (Json.obj [], rest)
        | _ =>
          match parseFields f cs with
          | none => none
          | some p => some (Json.obj p.1, p.2)
      else if c = '-' then
        match readDigits cs with
        | ([], _) => none
        | (ds, rest) => some (Json.num (-(digitsVal ds : Int)), rest)
      else if c.isDigit then
        let p := readDigits (c :: cs)
        some (Json.num (digitsVal p.1), p.2)
      else none) := rfl

theorem parseVal_digit (f : Nat) (c : Char) (cs : List Char) (h : c.isDigit = true) :
    parseVal (f + 1) (c :: cs) =
      some (.num ((digitsVal (readDigits (c :: cs)).1 : Nat) : Int),
        (readDigits (c :: cs)).2) := by
  obtain ⟨h1, h2, h3, h4, h5, h6, h7, -, -⟩ := isDigit_notSpecial c h
  rw [parseVal_cons, if_neg h1, if_neg h2, if_neg h3, if_neg h4, if_neg h5,
    if_neg h6, if_neg h7, if_pos h]

theorem parseElems_succ (f : Nat) (input : List Char) :
    parseElems (f + 1) input =
      match parseVal f input with
      | none => none
      | some (j, rest) =>
        match rest with
        | ',' :: rest2 =>
          match parseElems f rest2 with
          | none => none
          | some p => some (j :: p.1, p.2)
        | ']' :: rest2 => some ([j], rest2)
        | _ => none := rfl

theorem parseFields_quote (f : Nat) (cs : List Char) :
    parseFields (f + 1) ('"' :: cs) =
      match readStr cs with
      | none => none
      | some (key, rest) =>
        match rest with
        | ':' :: rest2 =>
          match parseVal f rest2 with
          | none => none
          | some (v, rest3) =>
            match rest3 with
            | ',' :: rest4 =>
              match parseFields f rest4 with
              | none => none
              | some p => some ((String.mk key, v) :: p.1, p.2)
            | '}' :: rest4 => some ([(String.mk key, v)], rest4)
            | _ => none
        | _ => none := rfl

mutual

theorem parseVal_print (j : Json) (fuel : Nat) (rest : List Char)
    (hfuel : jfuel j ≤ fuel) (hrest : noDigitHead rest = true) :
    parseVal fuel (stringifyVal j ++ rest) = some (j, rest) := by
  obtain ⟨f, rfl⟩ : ∃ f, fuel = f + 1 := by
    have := jfuel_pos j
    cases fuel with
    | zero => omega
    | succ f => exact ⟨f, rfl⟩
  cases j with
  | null =>
    have h : stringifyVal Json.null ++ rest = 'n' :: 'u' :: 'l' :: 'l' :: rest := by
      simp [stringifyVal]
    rw [h, parseVal_null]
  | bool b =>
    cases b with
    | true =>
      have h : stringifyVal (Json.bool true) ++ rest
          = 't' :: 'r' :: 'u' :: 'e' :: rest := by
        simp [stringifyVal]
      rw [h, parseVal_true]
    | false =>
      have h : stringifyVal (Json.bool false) ++ rest
          = 'f' :: 'a' :: 'l' :: 's' :: 'e' :: rest := by
        simp [stringifyVal]
      rw [h, parseVal_false]
  | num n =>
    by_cases hneg : n < 0
    · obtain ⟨d, ds, hd⟩ := List.exists_cons_of_ne_nil (natDigits_ne_nil n.natAbs)
      have h : stringifyVal (Json.num n) ++ rest
          = '-' :: (natDigits n.natAbs ++ rest) := by
        simp [stringifyVal, numChars, hneg]
      rw [h, parseVal_neg,
        readDigits_of_digits (natDigits n.natAbs) rest (natDigits_digits _) hrest, hd]
      show some (Json.num (-(digitsVal (d :: ds) : Int)), rest) = _
      rw [← hd, digitsVal_natDigits]
      have hval : -(n.natAbs : Int) = n := by omega
      rw [hval]
    · obtain ⟨d, ds, hd⟩ := List.exists_cons_of_ne_nil (natDigits_ne_nil n.toNat)
      have hdig : d.isDigit = true := natDigits_digits n.toNat d (by simp [hd])
      have h : stringifyVal (Json.num n) ++ rest = d :: (ds ++ rest) := by
        rw [show stringifyVal (Json.num n) = numChars n from by simp [stringifyVal],
          numChars, if_neg hneg, hd]
        simp
      rw [h, parseVal_digit f d (ds ++ rest) hdig]
      have hrd : readDigits (d :: (ds ++ rest)) = (natDigits n.toNat, rest) := by
        rw [show d :: (ds ++ rest) = (d :: ds) ++ rest from rfl, ← hd]
        exact readDigits_of_digits _ _ (natDigits_digits _) hrest
      rw [hrd]
      show some (Json.num (digitsVal (natDigits n.toNat) : Nat), rest) = _
      rw [digitsVal_natDigits]
      have hval : ((n.toNat : Nat) : Int) = n := by omega
      rw [hval]
  | str s =>
    have h : stringifyVal (Json.str s) ++ rest
        = '"' :: (escList s.data ++ '"' :: rest) := by
      simp [stringifyVal, strLit]
    rw [h, parseVal_quote, readStr_escList]
  | arr xs =>
    cases xs with
    | nil =>
      have h : stringifyVal (Json.arr []) ++ rest = '[' :: (']' :: rest) := by
        simp [stringifyVal, stringifyElems]
      rw [h, parseVal_lbrack]
      rfl
    | cons x xs =>
      obtain ⟨c0, l0, hc0, hne1, hne2⟩ := stringifyVal_head x
      obtain ⟨t, ht⟩ := stringifyElems_cons x xs
      have hshape : stringifyElems (x :: xs) ++ ']' :: rest
          = c0 :: (l0 ++ (t ++ ']' :: rest)) := by
        rw [ht, hc0]
        simp
      have h : stringifyVal (Json.arr (x :: xs)) ++ rest
          = '[' :: (stringifyElems (x :: xs) ++ ']' :: rest) := by
        simp [stringifyVal]
      have hfe : lfuel (x :: xs) ≤ f := by
        have hj : jfuel (Json.arr (x :: xs)) = 1 + lfuel (x :: xs) := by
          simp [jfuel]
        omega
      rw [h, parseVal_lbrack, hshape]
      split
      · rename_i heq
        rw [List.cons.injEq] at heq
        exact absurd heq.1 hne1
      · rw [← hshape, parseElems_print x xs f rest hfe]
  | obj fs =>
    cases fs with
    | nil =>
      have h : stringifyVal (Json.obj []) ++ rest = '{' :: ('}' :: rest) := by
        simp [stringifyVal, stringifyFields]
      rw [h, parseVal_lbrace]
      rfl
    | cons fd fs =>
      obtain ⟨t, ht⟩ := stringifyFields_cons fd fs
      have hshape : stringifyFields (fd :: fs) ++ '}' :: rest
          = '"' :: ((escList fd.1.data ++ ['"']) ++ (t ++ '}' :: rest)) := by
        rw [ht]
        simp [strLit]
      have h : stringifyVal (Json.obj (fd :: fs)) ++ rest
          = '{' :: (stringifyFields (fd :: fs) ++ '}' :: rest) := by
        simp [stringifyVal]
      have hff : ffuel (fd :: fs) ≤ f := by
        have hj : jfuel (Json.obj (fd :: fs)) = 1 + ffuel (fd :: fs) := by
          simp [jfuel]
        omega
      rw [h, parseVal_lbrace, hshape]
      split
      · rename_i heq
        rw [List.cons.injEq] at heq
        exact absurd heq.1 (by decide)
      · rw [← hshape, parseFields_print fd fs f rest hff]
  termination_by sizeOf j
  decreasing_by all_goals (subst_vars; simp_wf; try omega)

theorem parseElems_print (x : Json) (xs : List Json) (fuel : Nat) (rest : List Char)
    (hfuel : lfuel (x :: xs) ≤ fuel) :
    parseElems fuel (stringifyElems (x :: xs) ++ ']' :: rest) = some (x :: xs, rest) := by
  obtain ⟨f, rfl⟩ : ∃ f, fuel = f + 1 := by
    have := lfuel_cons_pos x xs
    cases fuel with
    | zero => omega
    | succ f => exact ⟨f, rfl⟩
  cases xs with
  | nil =>
    have hfx : jfuel x ≤ f := by
      have hl : lfuel [x] = 1 + jfuel x := by simp [lfuel]
      omega
    have h : stringifyElems [x] ++ ']' :: rest = stringifyVal x ++ ']' :: rest := by
      simp [stringifyElems]
    rw [h, parseElems_succ,
      parseVal_print x f (']' :: rest) hfx (by rw [noDigitHead_cons]; decide)]
    rfl
  | cons y ys =>
    have hfx : jfuel x ≤ f ∧ lfuel (y :: ys) ≤ f := by
      have hl : lfuel (x :: y :: ys) = 1 + max (jfuel x) (lfuel (y :: ys)) := by
        simp [lfuel]
      omega
    have h : stringifyElems (x :: y :: ys) ++ ']' :: rest
        = stringifyVal x ++ (',' :: (stringifyElems (y :: ys) ++ ']' :: rest)) := by
      simp [stringifyElems]
    rw [h, parseElems_succ,
      parseVal_print x f (',' :: (stringifyElems (y :: ys) ++ ']' :: rest)) hfx.1
        (by rw [noDigitHead_cons]; decide)]
    show (match parseElems f (stringifyElems (y :: ys) ++ ']' :: rest) with
      | none => none
      | some p => some (x :: p.1, p.2)) = _
    rw [parseElems_print y ys f rest hfx.2]
  termination_by (sizeOf x + sizeOf xs)
  decreasing_by all_goals (subst_vars; simp_wf; try omega)

theorem parseFields_print (fd : String × Json) (fs : List (String × Json))
    (fuel : Nat) (rest : List Char) (hfuel : ffuel (fd :: fs) ≤ fuel) :
    parseFields fuel (stringifyFields (fd :: fs) ++ '}' :: rest)
      = some (fd :: fs, rest) := by
  obtain ⟨f, rfl⟩ : ∃ f, fuel = f + 1 := by
    have := ffuel_cons_pos fd fs
    cases fuel with
    | zero => omega
    | succ f => exact ⟨f, rfl⟩
  have hmk : (String.mk fd.1.data, fd.2) = fd := rfl
  cases fs with
  | nil =>
    have hfv : jfuel fd.2 ≤ f := by
      have hl : ffuel [fd] = 1 + jfuel fd.2 := by simp [ffuel]
      omega
    have h : stringifyFields [fd] ++ '}' :: rest
        = '"' :: (escList fd.1.data
            ++ '"' :: (':' :: (stringifyVal fd.2 ++ '}' :: rest))) := by
      simp [stringifyFields, strLit]
    rw [h, parseFields_quote, readStr_escList]
    show (match parseVal f (stringifyVal fd.2 ++ '}' :: rest) with
      | none => none
      | some (w, rest3) =>
        match rest3 with
        | ',' :: rest4 =>
          match parseFields f rest4 with
          | none => none
          | some p => some ((String.mk fd.1.data, w) :: p.1, p.2)
        | '}' :: rest4 => some ([(String.mk fd.1.data, w)], rest4)
        | _ => none) = _
    rw [parseVal_print fd.2 f ('}' :: rest) hfv (by rw [noDigitHead_cons]; decide)]
    show some ([(String.mk fd.1.data, fd.2)], rest) = _
    rw [hmk]
  | cons g gs =>
    have hfv : jfuel fd.2 ≤ f ∧ ffuel (g :: gs) ≤ f := by
      have hl : ffuel (fd :: g :: gs)
          = 1 + max (jfuel fd.2) (ffuel (g :: gs)) := by
        simp [ffuel]
      omega
    have h : stringifyFields (fd :: g :: gs) ++ '}' :: rest
        = '"' :: (escList fd.1.data ++ '"' :: (':' :: (stringifyVal fd.2
            ++ (',' :: (stringifyFields (g :: gs) ++ '}' :: rest))))) := by
      simp [stringifyFields, strLit]
    rw [h, parseFields_quote, readStr_escList]
    show (match parseVal f (stringifyVal fd.2
        ++ (',' :: (stringifyFields (g :: gs) ++ '}' :: rest))) with
      | none => none
      | some (w, rest3) =>
        match rest3 with
        | ',' :: rest4 =>
          match parseFields f rest4 with
          | none => none
          | some p => some ((String.mk fd.1.data, w) :: p.1, p.2)
        | '}' :: rest4 => some ([(String.mk fd.1.data, w)], rest4)
        | _ => none) = _
    rw [parseVal_print fd.2 f (',' :: (stringifyFields (g :: gs) ++ '}' :: rest))
        hfv.1 (by rw [noDigitHead_cons]; decide)]
    show (match parseFields f (stringifyFields (g :: gs) ++ '}' :: rest) with
      | none => none
      | some p => some ((String.mk fd.1.data, fd.2) :: p.1, p.2)) = _
    rw [parseFields_print g gs f rest hfv.2, hmk]
  termination_by (sizeOf fd + sizeOf fs)
  decreasing_by all_goals (subst_vars; try (rcases fd with ⟨a, b⟩); simp_wf; try omega)

end
mutual

theorem jfuel_le (j : Json) : jfuel j ≤ (stringifyVal j).length + 1 := by
  cases j with
  | null => simp [jfuel, stringifyVal]
  | bool b => cases b <;> simp [jfuel, stringifyVal]
  | num n =>
    have : jfuel (Json.num n) = 1 := by simp [jfuel]
    omega
  | str s =>
    have : jfuel (Json.str s) = 1 := by simp [jfuel]
    omega
  | arr xs =>
    cases xs with
    | nil => simp [jfuel, stringifyVal, stringifyElems]
    | cons x xs =>
      have hl := lfuel_le x xs
      have hj : jfuel (Json.arr (x :: xs)) = 1 + lfuel (x :: xs) := by simp [jfuel]
      have hs : (stringifyVal (Json.arr (x :: xs))).length
          = (stringifyElems (x :: xs)).length + 2 := by
        simp [stringifyVal]
      omega
  | obj fs =>
    cases fs with
    | nil => simp [jfuel, stringifyVal, stringifyFields]
    | cons fd fs =>
      have hl := ffuel_le fd fs
      have hj : jfuel (Json.obj (fd :: fs)) = 1 + ffuel (fd :: fs) := by simp [jfuel]
      have hs : (stringifyVal (Json.obj (fd :: fs))).length
          = (stringifyFields (fd :: fs)).length + 2 := by
        simp [stringifyVal]
      omega
  termination_by sizeOf j
  decreasing_by all_goals (subst_vars; simp_wf; try omega)

theorem lfuel_le (x : Json) (xs : List Json) :
    lfuel (x :: xs) ≤ (stringifyElems (x :: xs)).length + 2 := by
  cases xs with
  | nil =>
    have h1 := jfuel_le x
    have hl : lfuel [x] = 1 + jfuel x := by simp [lfuel]
    have hs : (stringifyElems [x]).length = (stringifyVal x).length := by
      simp [stringifyElems]
    omega
  | cons y ys =>
    have h1 := jfuel_le x
    have h2 := lfuel_le y ys
    have hl : lfuel (x :: y :: ys) = 1 + max (jfuel x) (lfuel (y :: ys)) := by
      simp [lfuel]
    have hs : (stringifyElems (x :: y :: ys)).length
        = (stringifyVal x).length + 1 + (stringifyElems (y :: ys)).length := by
      simp [stringifyElems]
      omega
    omega
  termination_by (sizeOf x + sizeOf xs)
  decreasing_by all_goals (subst_vars; simp_wf; try omega)

theorem ffuel_le (fd : String × Json) (fs : List (String × Json)) :
    ffuel (fd :: fs) ≤ (stringifyFields (fd :: fs)).length + 2 := by
  cases fs with
  | nil =>
    have h1 := jfuel_le fd.2
    have hl : ffuel [fd] = 1 + jfuel fd.2 := by simp [ffuel]
    have hs : (stringifyFields [fd]).length
        = (strLit fd.1).length + 1 + (stringifyVal fd.2).length := by
      simp [stringifyFields]
      omega
    omega
  | cons g gs =>
    have h1 := jfuel_le fd.2
    have h2 := ffuel_le g gs
    have hl : ffuel (fd :: g :: gs)
        = 1 + max (jfuel fd.2) (ffuel (g :: gs)) := by
      simp [ffuel]
    have hs : (stringifyFields (fd :: g :: gs)).length
        = (strLit fd.1).length + 1 + (stringifyVal fd.2).length + 1
            + (stringifyFields (g :: gs)).length := by
      simp [stringifyFields]
      omega
    omega
  termination_by (sizeOf fd + sizeOf fs)
  decreasing_by all_goals (subst_vars; try (rcases fd with ⟨a, b⟩); simp_wf; try omega)

end
/-- Roundtrip of the platform JSON layer: parsing a stringified value yields
the value back. -/
theorem Json.parse_stringify (j : Json) : Json.parse (Json.stringify j) = some j := by
  unfold Json.parse Json.stringify
  have hdata : (String.mk (stringifyVal j)).data = stringifyVal j := rfl
  have hlen : (String.mk (stringifyVal j)).length = (stringifyVal j).length := rfl
  rw [hdata, hlen]
  have h := parseVal_print j ((stringifyVal j).length + 1) []
    (by have := jfuel_le j; omega) rfl
  rw [List.append_nil] at h
  rw [h]

theorem stringify_ne_empty (j : Json) : Json.stringify j ≠ "" := by
  obtain ⟨c, l, hc, -, -⟩ := stringifyVal_head j
  have hlen : (Json.stringify j).length = (c :: l).length := by
    unfold Json.stringify
    rw [hc]
    rfl
  intro h
  rw [h] at hlen
  simp at hlen

theorem makeMove_eq (s : SessionView) (p : Nat) (r : FetchResult)
    (hl : s.loading = false) :
    makeMove s p r =
      ({ (match makeMoveTry (moveEntry s) r with
          | Except.ok st => st
          | Except.error e => { moveEntry s with error := some (.str e.msg) }) with
         loading := false },
       some ("move " ++ toString p)) := by
  simp [makeMove, hl]

theorem startNewGame_eq (s : SessionView) (r : FetchResult) :
    startNewGame s r =
      ({ (match startNewGameTry (newGameEntry s) r with
          | Except.ok st => st
          | Except.error e =>
            { newGameEntry s with error := some (.str e.msg) }) with
         loading := false },
       some "new game") := rfl

theorem makeMoveTry_reject (s1 : SessionView) (m : String) :
    makeMoveTry s1 (.reject m) = Except.error ⟨m⟩ := rfl

theorem makeMoveTry_notOk (s1 : SessionView) (st : Nat) (body : String) :
    makeMoveTry s1 (.resp false st body)
      = Except.error ⟨"API error: " ++ toString st⟩ := rfl

theorem makeMoveTry_badBody (s1 : SessionView) (st : Nat) (body : String)
    (hb : Json.parse body = none) :
    makeMoveTry s1 (.resp true st body) = Except.error ⟨parseFailMsg⟩ := by
  simp [makeMoveTry, jsonOrThrow, hb]

theorem makeMoveTry_envFail (s1 : SessionView) (st : Nat) (body : String)
    (data : Json) (hb : Json.parse body = some data)
    (he : envelopeOkA data = false) :
    makeMoveTry s1 (.resp true st body)
      = Except.ok { s1 with error := some (jsOr (data.getField "error")
          (.str "Failed to process move")) } := by
  simp [makeMoveTry, jsonOrThrow, hb, he]

theorem makeMoveTry_badInner (s1 : SessionView) (st : Nat) (body : String)
    (data : Json) (str2 : String) (hb : Json.parse body = some data)
    (he : envelopeOkA data = true) (hr : respOfData data = .str str2)
    (hp : Json.parse str2 = none) :
    makeMoveTry s1 (.resp true st body) = Except.error ⟨parseFailMsg⟩ := by
  simp [makeMoveTry, jsonOrThrow, hb, he, hr, normalizeResp, hp]

theorem makeMoveTry_success (s1 : SessionView) (st : Nat) (body : String)
    (data gd : Json) (hb : Json.parse body = some data)
    (he : envelopeOkA data = true)
    (hn : normalizeResp (respOfData data) = some gd) :
    makeMoveTry s1 (.resp true st body)
      = Except.ok
        (if optIsStr (gd.getField "game_status") "won"
            || optIsStr (gd.getField "game_status") "draw" then
          { s1 with gameState := gd.getField "game_state",
                    gameStatus := gd.getField "game_status",
                    message := gd.getField "message",
                    winner := gd.getField "winner",
                    showWinnerModal := true }
        else
          { s1 with gameState := gd.getField "game_state",
                    gameStatus := gd.getField "game_status",
                    message := gd.getField "message" }) := by
  simp only [makeMoveTry, jsonOrThrow, hb, he, hn, Bool.not_true, if_false,
    Bool.false_eq_true, if_true]
  split <;> rfl

theorem startNewGameTry_reject (s1 : SessionView) (m : String) :
    startNewGameTry s1 (.reject m) = Except.error ⟨m⟩ := rfl

theorem startNewGameTry_notOk (s1 : SessionView) (st : Nat) (body : String) :
    startNewGameTry s1 (.resp false st body)
      = Except.error ⟨"API error: " ++ toString st⟩ := rfl

theorem startNewGameTry_badBody (s1 : SessionView) (st : Nat) (body : String)
    (hb : Json.parse body = none) :
    startNewGameTry s1 (.resp true st body) = Except.error ⟨parseFailMsg⟩ := by
  simp [startNewGameTry, jsonOrThrow, hb]

theorem startNewGameTry_envFail (s1 : SessionView) (st : Nat) (body : String)
    (data : Json) (hb : Json.parse body = some data)
    (he : envelopeOkA data = false) :
    startNewGameTry s1 (.resp true st body)
      = Except.ok { s1 with error := some (jsOr (data.getField "error")
          (.str "Failed to start new game")) } := by
  simp [startNewGameTry, jsonOrThrow, hb, he]

theorem startNewGameTry_badInner (s1 : SessionView) (st : Nat) (body : String)
    (data : Json) (str2 : String) (hb : Json.parse body = some data)
    (he : envelopeOkA data = true) (hr : respOfData data = .str str2)
    (hp : Json.parse str2 = none) :
    startNewGameTry s1 (.resp true st body) = Except.error ⟨parseFailMsg⟩ := by
  simp [startNewGameTry, jsonOrThrow, hb, he, hr, normalizeResp, hp]

theorem startNewGameTry_success (s1 : SessionView) (st : Nat) (body : String)
    (data gd : Json) (hb : Json.parse body = some data)
    (he : envelopeOkA data = true)
    (hn : normalizeResp (respOfData data) = some gd) :
    startNewGameTry s1 (.resp true st body)
      = Except.ok { s1 with gameState := gd.getField "game_state",
                            gameStatus := gd.getField "game_status",
                            message := gd.getField "message" } := by
  simp [startNewGameTry, jsonOrThrow, hb, he, hn]

/-- C3: for every position `p`, calling `makeMove p` while `loading` is true
performs no side effect: it issues no HTTP request and leaves every field of
the session view unchanged (at-most-one-in-flight invariant). -/
theorem C3_makeMove_noop_while_loading (s : SessionView) (p : Nat)
    (r : FetchResult) (hl : s.loading = true) :
    makeMove s p r = (s, none) := by
  simp [makeMove, hl]

theorem C3_makeMove_noop_while_loading_witness :
    ({ initialState with loading := true } : SessionView).loading = true ∧
    makeMove { initialState with loading := true } 5 (.reject "network down")
      = ({ initialState with loading := true }, none) :=
  ⟨rfl, C3_makeMove_noop_while_loading { initialState with loading := true } 5
    (.reject "network down") rfl⟩

/-- C4 counterexample: `startNewGame` itself has no loading guard — called
with `loading = true` it still issues its request, refuting the claim that
the operation does not issue a request while `loading` is true. -/
theorem C4_counterexample :
    ({ initialState with loading := true } : SessionView).loading = true ∧
    (startNewGame { initialState with loading := true }
      (.reject "network down")).2 = some "new game" :=
  ⟨rfl, rfl⟩

/-- C4 (amended): `startNewGame` always issues its request, whatever the
prior `loading` value; starting a new game while a move is in flight is
prevented only at the UI layer, where the New Game button's `disabled` flag
equals `loading`. -/
theorem C4_no_internal_guard_button_disabled :
    (∀ (s : SessionView) (r : FetchResult),
      (startNewGame s r).2 = some "new game") ∧
    (∀ l : Bool, newGameButtonDisabled l = l) :=
  ⟨fun _ _ => rfl, fun _ => rfl⟩

/-- C5: on every exit path of `startNewGame` and of a `makeMove` that passed
its guard — success, envelope failure, parse failure, or network failure —
the operation terminates with `loading = false` (the `finally` block). -/
theorem C5_loading_cleared :
    (∀ (s : SessionView) (r : FetchResult),
      (startNewGame s r).1.loading = false) ∧
    (∀ (s : SessionView) (p : Nat) (r : FetchResult), s.loading = false →
      (makeMove s p r).1.loading = false) := by
  constructor
  · intro s r
    rfl
  · intro s p r hl
    rw [makeMove_eq s p r hl]

theorem C5_loading_cleared_witness :
    (startNewGame initialState (.reject "offline")).1.loading = false ∧
    initialState.loading = false ∧
    (makeMove initialState 1 (.reject "offline")).1.loading = false :=
  ⟨C5_loading_cleared.1 initialState (.reject "offline"), rfl,
   C5_loading_cleared.2 initialState 1 (.reject "offline") rfl⟩

theorem makeMoveB_eq (sB : SessionViewB) (p : Nat) (r : FetchResult)
    (hl : sB.loading = false) :
    makeMoveB sB p r =
      ({ (match makeMoveTryB { sB with loading := true, error := none } r with
          | Except.ok st => st
          | Except.error e =>
            { sB with loading := true, error := some (.str e.msg) }) with
         loading := false },
       some ("move " ++ toString p)) := by
  simp [makeMoveB, hl]

theorem makeMoveTryB_success (s1 : SessionViewB) (ok : Bool) (st : Nat)
    (body : String) (data : Json) (hb : Json.parse body = some data)
    (he : envelopeOkB data = true) :
    makeMoveTryB s1 (.resp ok st body)
      = Except.ok
        (if optIsStr ((respOfData data).getField "game_status") "won"
            || optIsStr ((respOfData data).getField "game_status") "draw" then
          { s1 with gameState := (respOfData data).getField "game_state",
                    gameStatus := (respOfData data).getField "game_status",
                    message := (respOfData data).getField "message",
                    winner := (respOfData data).getField "winner" }
        else
          { s1 with gameState := (respOfData data).getField "game_state",
                    gameStatus := (respOfData data).getField "game_status",
                    message := (respOfData data).getField "message" }) := by
  simp only [makeMoveTryB, jsonOrThrow, hb, he, if_true]
  split <;> rfl

/-- C1: a success envelope of either observed variant — a truthy boolean
`success` flag with a `response` field (handled by `page.tsx`), or
`status == "success"` with a `response` field (handled by the `part_000`
snapshot) — has its `response` payload extracted, and `gameState`,
`gameStatus` and `message` are updated from it; between the two components
the client supports both variants. -/
theorem C1_success_envelope_both_variants
    (s : SessionView) (sB : SessionViewB) (p : Nat) (bodyA bodyB : String)
    (envA respA gdA envB : Json)
    (hl : s.loading = false) (hlB : sB.loading = false)
    (hbA : Json.parse bodyA = some envA)
    (hsA : truthyOpt (envA.getField "success") = true)
    (hrA : envA.getField "response" = some respA)
    (htA : respA.truthy = true)
    (hnA : normalizeResp respA = some gdA)
    (hbB : Json.parse bodyB = some envB)
    (hsB : optIsStr (envB.getField "status") "success" = true)
    (htB : truthyOpt (envB.getField "response") = true) :
    ((makeMove s p (.resp true 200 bodyA)).1.gameState
        = gdA.getField "game_state" ∧
     (makeMove s p (.resp true 200 bodyA)).1.gameStatus
        = gdA.getField "game_status" ∧
     (makeMove s p (.resp true 200 bodyA)).1.message
        = gdA.getField "message") ∧
    ((makeMoveB sB p (.resp true 200 bodyB)).1.gameState
        = (respOfData envB).getField "game_state" ∧
     (makeMoveB sB p (.resp true 200 bodyB)).1.gameStatus
        = (respOfData envB).getField "game_status" ∧
     (makeMoveB sB p (.resp true 200 bodyB)).1.message
        = (respOfData envB).getField "message") := by
  constructor
  · have heA : envelopeOkA envA = true := by
      unfold envelopeOkA
      rw [hsA, hrA]
      simp [truthyOpt, htA]
    have hnA2 : normalizeResp (respOfData envA) = some gdA := by
      rw [show respOfData envA = respA from by simp [respOfData, hrA]]
      exact hnA
    rw [makeMove_eq s p _ hl, makeMoveTry_success _ 200 bodyA envA gdA hbA heA hnA2]
    by_cases hc : (optIsStr (gdA.getField "game_status") "won"
        || optIsStr (gdA.getField "game_status") "draw") = true
    · rw [if_pos hc]
      exact ⟨rfl, rfl, rfl⟩
    · rw [if_neg hc]
      exact ⟨rfl, rfl, rfl⟩
  · have heB : envelopeOkB envB = true := by
      unfold envelopeOkB
      rw [hsB, htB]
      rfl
    rw [makeMoveB_eq sB p _ hlB, makeMoveTryB_success _ true 200 bodyB envB hbB heB]
    by_cases hc : (optIsStr ((respOfData envB).getField "game_status") "won"
        || optIsStr ((respOfData envB).getField "game_status") "draw") = true
    · rw [if_pos hc]
      exact ⟨rfl, rfl, rfl⟩
    · rw [if_neg hc]
      exact ⟨rfl, rfl, rfl⟩

theorem C1_success_envelope_both_variants_witness :
    ((makeMove initialState 5 (.resp true 200 (Json.stringify sampleEnvA))).1.gameState
        = samplePayload.getField "game_state" ∧
     (makeMove initialState 5 (.resp true 200 (Json.stringify sampleEnvA))).1.gameStatus
        = samplePayload.getField "game_status" ∧
     (makeMove initialState 5 (.resp true 200 (Json.stringify sampleEnvA))).1.message
        = samplePayload.getField "message") ∧
    ((makeMoveB initialStateB 5 (.resp true 200 (Json.stringify sampleEnvB))).1.gameState
        = (respOfData sampleEnvB).getField "game_state" ∧
     (makeMoveB initialStateB 5 (.resp true 200 (Json.stringify sampleEnvB))).1.gameStatus
        = (respOfData sampleEnvB).getField "game_status" ∧
     (makeMoveB initialStateB 5 (.resp true 200 (Json.stringify sampleEnvB))).1.message
        = (respOfData sampleEnvB).getField "message") :=
  C1_success_envelope_both_variants initialState initialStateB 5
    (Json.stringify sampleEnvA) (Json.stringify sampleEnvB)
    sampleEnvA samplePayload samplePayload sampleEnvB
    rfl rfl (Json.parse_stringify sampleEnvA) rfl rfl rfl rfl
    (Json.parse_stringify sampleEnvB) rfl rfl

/-- C2: normalization is idempotent with respect to double encoding — for
every structured game payload, a success envelope carrying the payload as an
object and one carrying the same payload JSON-stringified yield exactly the
same resulting `gameState`. -/
theorem C2_double_encoding_same_gameState (s : SessionView) (p : Nat)
    (fields : List (String × Json)) (hl : s.loading = false) :
    (makeMove s p (.resp true 200 (Json.stringify
      (Json.obj [("success", Json.bool true),
        ("response", Json.obj fields)])))).1.gameState
    = (makeMove s p (.resp true 200 (Json.stringify
      (Json.obj [("success", Json.bool true),
        ("response", Json.str (Json.stringify (Json.obj fields)))])))).1.gameState := by
  have h1 : envelopeOkA (Json.obj [("success", Json.bool true),
      ("response", Json.obj fields)]) = true := by
    simp [envelopeOkA, Json.getField, Json.lookupField, truthyOpt, Json.truthy]
  have h2 : envelopeOkA (Json.obj [("success", Json.bool true),
      ("response", Json.str (Json.stringify (Json.obj fields)))]) = true := by
    simp [envelopeOkA, Json.getField, Json.lookupField, truthyOpt, Json.truthy,
      stringify_ne_empty]
  have hr1 : respOfData (Json.obj [("success", Json.bool true),
      ("response", Json.obj fields)]) = Json.obj fields := by
    simp [respOfData, Json.getField, Json.lookupField]
  have hr2 : respOfData (Json.obj [("success", Json.bool true),
      ("response", Json.str (Json.stringify (Json.obj fields)))])
      = Json.str (Json.stringify (Json.obj fields)) := by
    simp [respOfData, Json.getField, Json.lookupField]
  have hn1 : normalizeResp (respOfData (Json.obj [("success", Json.bool true),
      ("response", Json.obj fields)])) = some (Json.obj fields) := by
    rw [hr1]
    rfl
  have hn2 : normalizeResp (respOfData (Json.obj [("success", Json.bool true),
      ("response", Json.str (Json.stringify (Json.obj fields)))]))
      = some (Json.obj fields) := by
    rw [hr2]
    simp [normalizeResp, Json.parse_stringify]
  rw [makeMove_eq s p _ hl, makeMove_eq s p _ hl,
    makeMoveTry_success _ 200 _ _ _ (Json.parse_stringify _) h1 hn1,
    makeMoveTry_success _ 200 _ _ _ (Json.parse_stringify _) h2 hn2]

theorem C2_double_encoding_same_gameState_witness :
    initialState.loading = false ∧
    (makeMove initialState 5 (.resp true 200 (Json.stringify
      (Json.obj [("success", Json.bool true),
        ("response", Json.obj [("game_state", Json.str "g")])])))).1.gameState
    = (makeMove initialState 5 (.resp true 200 (Json.stringify
      (Json.obj [("success", Json.bool true),
        ("response", Json.str (Json.stringify
          (Json.obj [("game_state", Json.str "g")])))])))).1.gameState :=
  ⟨rfl, C2_double_encoding_same_gameState initialState 5
    [("game_state", Json.str "g")] rfl⟩

/-- C6 counterexample: on the failure envelope
`{"success": false, "error": 1}`, `makeMove` stores the envelope's `error`
field as-is — the stored value is the number `1`, not a non-empty string —
refuting the claim that every failure sets `error` to a non-empty string
(the board is still left unchanged). -/
theorem C6_counterexample :
    (makeMove initialState 5 (.resp true 200 (Json.stringify envNumError))).1.error
      = some (Json.num 1) ∧
    Json.isStr (Json.num 1) = false ∧
    (makeMove initialState 5
      (.resp true 200 (Json.stringify envNumError))).1.gameState
      = initialState.gameState := by
  rw [makeMove_eq initialState 5 _ rfl,
    makeMoveTry_envFail _ 200 _ envNumError (Json.parse_stringify envNumError) rfl]
  exact ⟨rfl, rfl, rfl⟩

/-- C6 (amended): on every failure outcome of `makeMove` or `startNewGame`,
`gameState` is left exactly equal to its prior value and `error` is set
non-null — to the caught error's message string for network rejections,
non-OK statuses and parse failures at either layer, and for envelope
failures to the envelope's truthy `error` field (which need not be a
string) or a non-empty default string otherwise. -/
theorem C6_failure_error_and_frame (s : SessionView) (p : Nat)
    (hl : s.loading = false) :
    ((∀ m, (makeMove s p (.reject m)).1.error = some (.str m) ∧
      (makeMove s p (.reject m)).1.gameState = s.gameState) ∧
    (∀ st body, (makeMove s p (.resp false st body)).1.error
        = some (.str ("API error: " ++ toString st)) ∧
      (makeMove s p (.resp false st body)).1.gameState = s.gameState) ∧
    (∀ st body, Json.parse body = none →
      (makeMove s p (.resp true st body)).1.error = some (.str parseFailMsg) ∧
      (makeMove s p (.resp true st body)).1.gameState = s.gameState) ∧
    (∀ st body data, Json.parse body = some data → envelopeOkA data = false →
      (makeMove s p (.resp true st body)).1.error
        = some (jsOr (data.getField "error") (.str "Failed to process move")) ∧
      (makeMove s p (.resp true st body)).1.gameState = s.gameState) ∧
    (∀ st body data str2, Json.parse body = some data → envelopeOkA data = true →
      respOfData data = .str str2 → Json.parse str2 = none →
      (makeMove s p (.resp true st body)).1.error = some (.str parseFailMsg) ∧
      (makeMove s p (.resp true st body)).1.gameState = s.gameState)) ∧
    ((∀ m, (startNewGame s (.reject m)).1.error = some (.str m) ∧
      (startNewGame s (.reject m)).1.gameState = s.gameState) ∧
    (∀ st body, (startNewGame s (.resp false st body)).1.error
        = some (.str ("API error: " ++ toString st)) ∧
      (startNewGame s (.resp false st body)).1.gameState = s.gameState) ∧
    (∀ st body, Json.parse body = none →
      (startNewGame s (.resp true st body)).1.error = some (.str parseFailMsg) ∧
      (startNewGame s (.resp true st body)).1.gameState = s.gameState) ∧
    (∀ st body data, Json.parse body = some data → envelopeOkA data = false →
      (startNewGame s (.resp true st body)).1.error
        = some (jsOr (data.getField "error") (.str "Failed to start new game")) ∧
      (startNewGame s (.resp true st body)).1.gameState = s.gameState) ∧
    (∀ st body data str2, Json.parse body = some data → envelopeOkA data = true →
      respOfData data = .str str2 → Json.parse str2 = none →
      (startNewGame s (.resp true st body)).1.error = some (.str parseFailMsg) ∧
      (startNewGame s (.resp true st body)).1.gameState = s.gameState)) ∧
    parseFailMsg ≠ "" ∧ "Failed to process move" ≠ ""
      ∧ "Failed to start new game" ≠ "" := by
  refine ⟨?_, ?_, by decide, by decide, by decide⟩
  · refine ⟨?_, ?_, ?_, ?_, ?_⟩
    · intro m
      rw [makeMove_eq s p _ hl, makeMoveTry_reject]
      exact ⟨rfl, rfl⟩
    · intro st body
      rw [makeMove_eq s p _ hl, makeMoveTry_notOk]
      exact ⟨rfl, rfl⟩
    · intro st body hb
      rw [makeMove_eq s p _ hl, makeMoveTry_badBody _ _ _ hb]
      exact ⟨rfl, rfl⟩
    · intro st body data hb he
      rw [makeMove_eq s p _ hl, makeMoveTry_envFail _ _ _ _ hb he]
      exact ⟨rfl, rfl⟩
    · intro st body data str2 hb he hr hp
      rw [makeMove_eq s p _ hl, makeMoveTry_badInner _ _ _ _ _ hb he hr hp]
      exact ⟨rfl, rfl⟩
  · refine ⟨?_, ?_, ?_, ?_, ?_⟩
    · intro m
      rw [startNewGame_eq, startNewGameTry_reject]
      exact ⟨rfl, rfl⟩
    · intro st body
      rw [startNewGame_eq, startNewGameTry_notOk]
      exact ⟨rfl, rfl⟩
    · intro st body hb
      rw [startNewGame_eq, startNewGameTry_badBody _ _ _ hb]
      exact ⟨rfl, rfl⟩
    · intro st body data hb he
      rw [startNewGame_eq, startNewGameTry_envFail _ _ _ _ hb he]
      exact ⟨rfl, rfl⟩
    · intro st body data str2 hb he hr hp
      rw [startNewGame_eq, startNewGameTry_badInner _ _ _ _ _ hb he hr hp]
      exact ⟨rfl, rfl⟩

theorem C6_failure_error_and_frame_witness :
    initialState.loading = false ∧
    Json.parse "oops" = none ∧
    (makeMove initialState 5 (.resp true 200 "oops")).1.error
      = some (.str parseFailMsg) ∧
    (makeMove initialState 5 (.resp true 200 "oops")).1.gameState
      = initialState.gameState :=
  ⟨rfl, rfl,
   (C6_failure_error_and_frame initialState 5 rfl).1.2.2.1 200 "oops" rfl⟩

/-- C7 counterexample: on the failure envelope `{"error": []}` the envelope
failure is caught, but the value surfaced in `error` is the array `[]`, not
a string — refuting the claim that every error of the taxonomy is converted
to a user-visible error string. -/
theorem C7_counterexample :
    (makeMove initialState 3 (.resp true 200 (Json.stringify envArrError))).1.error
      = some (Json.arr []) ∧
    Json.isStr (Json.arr []) = false := by
  rw [makeMove_eq initialState 3 _ rfl,
    makeMoveTry_envFail _ 200 _ envArrError (Json.parse_stringify envArrError) rfl]
  exact ⟨rfl, rfl⟩

/-- C7 (amended): every fault of the taxonomy is caught inside the operation
and surfaced in the `error` field rather than propagated — network and parse
failures are thrown inside the `try` block and the `catch` stores the thrown
error's message string; envelope failures store a non-null (but not
necessarily string) value; no response input escapes the operation as an
unhandled fault. -/
theorem C7_faults_caught_locally (s : SessionView) (p : Nat) (r : FetchResult)
    (hl : s.loading = false) :
    (∀ e, makeMoveTry (moveEntry s) r = Except.error e →
      (makeMove s p r).1.error = some (.str e.msg)) ∧
    (∀ e, startNewGameTry (newGameEntry s) r = Except.error e →
      (startNewGame s r).1.error = some (.str e.msg)) ∧
    (∀ st body data, r = .resp true st body → Json.parse body = some data →
      envelopeOkA data = false →
      (makeMove s p r).1.error ≠ none ∧ (startNewGame s r).1.error ≠ none) := by
  refine ⟨?_, ?_, ?_⟩
  · intro e he
    rw [makeMove_eq s p r hl, he]
  · intro e he
    rw [startNewGame_eq, he]
  · intro st body data hr hb he
    subst hr
    rw [makeMove_eq s p _ hl, makeMoveTry_envFail _ _ _ _ hb he,
      startNewGame_eq, startNewGameTry_envFail _ _ _ _ hb he]
    exact ⟨by simp, by simp⟩

theorem C7_faults_caught_locally_witness :
    initialState.loading = false ∧
    makeMoveTry (moveEntry initialState) (.reject "connection reset")
      = Except.error ⟨"connection reset"⟩ ∧
    (makeMove initialState 7 (.reject "connection reset")).1.error
      = some (.str "connection reset") :=
  ⟨rfl, rfl,
   (C7_faults_caught_locally initialState 7 (.reject "connection reset") rfl).1
     ⟨"connection reset"⟩ rfl⟩

/-- C8: on a successful `makeMove` response whose normalized `game_status`
is `"won"` or `"draw"`, `winner` is set from the payload's `winner` field
and the end-of-game dialog is triggered (`showWinnerModal := true`); for a
normalized status of `"in_progress"`, `winner` and the dialog flag are left
unchanged. -/
theorem C8_winner_on_terminal_status (s : SessionView) (p st : Nat)
    (body : String) (data gd : Json) (hl : s.loading = false)
    (hb : Json.parse body = some data) (he : envelopeOkA data = true)
    (hn : normalizeResp (respOfData data) = some gd) :
    ((gd.getField "game_status" = some (.str "won") ∨
      gd.getField "game_status" = some (.str "draw")) →
      (makeMove s p (.resp true st body)).1.winner = gd.getField "winner" ∧
      (makeMove s p (.resp true st body)).1.showWinnerModal = true) ∧
    (gd.getField "game_status" = some (.str "in_progress") →
      (makeMove s p (.resp true st body)).1.winner = s.winner ∧
      (makeMove s p (.resp true st body)).1.showWinnerModal
        = s.showWinnerModal) := by
  rw [makeMove_eq s p _ hl, makeMoveTry_success _ st body data gd hb he hn]
  constructor
  · intro hterm
    have hc : (optIsStr (gd.getField "game_status") "won"
        || optIsStr (gd.getField "game_status") "draw") = true := by
      rcases hterm with h | h <;> simp [h, optIsStr, Json.isStrEq]
    rw [if_pos hc]
    exact ⟨rfl, rfl⟩
  · intro hprog
    have hc : ¬ ((optIsStr (gd.getField "game_status") "won"
        || optIsStr (gd.getField "game_status") "draw") = true) := by
      simp [hprog, optIsStr, Json.isStrEq]
    rw [if_neg hc]
    exact ⟨rfl, rfl⟩

theorem C8_winner_on_terminal_status_witness :
    (makeMove initialState 5
      (.resp true 200 (Json.stringify sampleEnvWon))).1.winner
      = samplePayloadWon.getField "winner" ∧
    (makeMove initialState 5
      (.resp true 200 (Json.stringify sampleEnvWon))).1.showWinnerModal
      = true :=
  (C8_winner_on_terminal_status initialState 5 200
    (Json.stringify sampleEnvWon) sampleEnvWon samplePayloadWon rfl
    (Json.parse_stringify sampleEnvWon) rfl rfl).1 (Or.inl rfl)

/-- C10: `startNewGame` clears `winner` and resets `gameStatus` to
`"in_progress"` before issuing its request, so on every failure outcome —
network rejection, non-OK status, parse failure at either layer, or failure
envelope — these resets persist while `gameState` keeps its prior value. -/
theorem C10_new_game_failure_resets_persist (s : SessionView) :
    (∀ m, (startNewGame s (.reject m)).1.winner = none ∧
      (startNewGame s (.reject m)).1.gameStatus = some (.str "in_progress") ∧
      (startNewGame s (.reject m)).1.gameState = s.gameState) ∧
    (∀ st body, (startNewGame s (.resp false st body)).1.winner = none ∧
      (startNewGame s (.resp false st body)).1.gameStatus
        = some (.str "in_progress") ∧
      (startNewGame s (.resp false st body)).1.gameState = s.gameState) ∧
    (∀ st body, Json.parse body = none →
      (startNewGame s (.resp true st body)).1.winner = none ∧
      (startNewGame s (.resp true st body)).1.gameStatus
        = some (.str "in_progress") ∧
      (startNewGame s (.resp true st body)).1.gameState = s.gameState) ∧
    (∀ st body data, Json.parse body = some data → envelopeOkA data = false →
      (startNewGame s (.resp true st body)).1.winner = none ∧
      (startNewGame s (.resp true st body)).1.gameStatus
        = some (.str "in_progress") ∧
      (startNewGame s (.resp true st body)).1.gameState = s.gameState) ∧
    (∀ st body data str2, Json.parse body = some data →
      envelopeOkA data = true → respOfData data = .str str2 →
      Json.parse str2 = none →
      (startNewGame s (.resp true st body)).1.winner = none ∧
      (startNewGame s (.resp true st body)).1.gameStatus
        = some (.str "in_progress") ∧
      (startNewGame s (.resp true st body)).1.gameState = s.gameState) := by
  refine ⟨?_, ?_, ?_, ?_, ?_⟩
  · intro m
    rw [startNewGame_eq, startNewGameTry_reject]
    exact ⟨rfl, rfl, rfl⟩
  · intro st body
    rw [startNewGame_eq, startNewGameTry_notOk]
    exact ⟨rfl, rfl, rfl⟩
  · intro st body hb
    rw [startNewGame_eq, startNewGameTry_badBody _ _ _ hb]
    exact ⟨rfl, rfl, rfl⟩
  · intro st body data hb he
    rw [startNewGame_eq, startNewGameTry_envFail _ _ _ _ hb he]
    exact ⟨rfl, rfl, rfl⟩
  · intro st body data str2 hb he hr hp
    rw [startNewGame_eq, startNewGameTry_badInner _ _ _ _ _ hb he hr hp]
    exact ⟨rfl, rfl, rfl⟩

theorem C10_new_game_failure_resets_persist_witness :
    finishedState.winner = some (.str "X") ∧
    finishedState.gameStatus = some (.str "won") ∧
    Json.parse "oops" = none ∧
    (startNewGame finishedState (.resp true 200 "oops")).1.winner = none ∧
    (startNewGame finishedState (.resp true 200 "oops")).1.gameStatus
      = some (.str "in_progress") ∧
    (startNewGame finishedState (.resp true 200 "oops")).1.gameState
      = finishedState.gameState := by
  refine ⟨rfl, rfl, rfl, ?_⟩
  exact (C10_new_game_failure_resets_persist finishedState).2.2.1 200 "oops" rfl

/-- C9: a rendered cell at index `i` (position `i + 1`) is clickable (its
button not disabled) iff its position is in `available_moves` and `loading`
is false; under the data-model invariant that marked positions are excluded
from `available_moves`, a cell showing a mark is never clickable. -/
theorem C9_cell_clickable_iff (gs : Option Json) (loading : Bool) (i : Nat)
    (hi : i < (renderedCells gs loading).length) :
    (((renderedCells gs loading).get ⟨i, hi⟩).disabled = false ↔
      (includesNum (jsonElems (availOf gs)) ((i : Int) + 1) = true ∧
        loading = false)) ∧
    (marksMatchAvail gs = true →
      ((renderedCells gs loading).get ⟨i, hi⟩).displayValue ≠ "" →
      ((renderedCells gs loading).get ⟨i, hi⟩).disabled = true) := by
  have hib : i < (jsonElems (boardOf gs)).length := by
    have hlen : (renderedCells gs loading).length
        = (jsonElems (boardOf gs)).length := by
      simp [renderedCells]
    omega
  have hie : i < (jsonElems (boardOf gs)).enum.length := by
    simp [hib]
  have hcell : (renderedCells gs loading).get ⟨i, hi⟩
      = cellOf ((jsonElems (boardOf gs))[i])
          (includesNum (jsonElems (availOf gs)) ((i : Int) + 1) && !loading) := by
    show (renderedCells gs loading)[i] = _
    simp [renderedCells, List.getElem_map, List.getElem_enum]
  rw [hcell]
  constructor
  · constructor
    · intro hd
      simp only [cellOf, Bool.not_eq_false', Bool.and_eq_true,
        Bool.not_eq_true'] at hd
      exact hd
    · intro hd
      simp only [cellOf, Bool.not_eq_false', Bool.and_eq_true,
        Bool.not_eq_true']
      exact hd
  · intro hinv hdisp
    have hmark : (jsonElems (boardOf gs))[i].isStrEq "X" = true ∨
        (jsonElems (boardOf gs))[i].isStrEq "O" = true := by
      by_contra hno
      push_neg at hno
      simp only [Bool.not_eq_true] at hno
      apply hdisp
      simp [cellOf, hno.1, hno.2]
    have hninc : includesNum (jsonElems (availOf gs)) ((i : Int) + 1) = false := by
      have hall := List.all_eq_true.mp hinv ((jsonElems (boardOf gs)).enum[i])
        (List.getElem_mem hie)
      rw [List.getElem_enum] at hall
      simp only [Bool.or_eq_true, Bool.not_eq_true'] at hall
      rcases hall with h | h
      · rw [Bool.or_eq_false_iff] at h
        rcases hmark with hm | hm
        · rw [hm] at h
          exact absurd h.1 (by simp)
        · rw [hm] at h
          exact absurd h.2 (by simp)
      · exact h
    simp [cellOf, hninc]

theorem C9_cell_clickable_iff_witness :
    (((renderedCells (some sampleGameStateJson) false).get
        ⟨1, by decide⟩).disabled = false) ∧
    (((renderedCells (some sampleGameStateJson) false).get
        ⟨0, by decide⟩).disabled = true) :=
  ⟨((C9_cell_clickable_iff (some sampleGameStateJson) false 1 (by decide)).1).mpr
      ⟨by decide, rfl⟩,
   (C9_cell_clickable_iff (some sampleGameStateJson) false 0 (by decide)).2
      (by decide) (by decide)⟩
